import Mathlib

/-
Verification of the link-curation and iterative-query workflow of the
Smart Tender Assistant (src/main.py), as a shallow embedding in Lean.

Conventions of the embedding:
- Python strings are Lean `String`s; where a claim needs length or
  truncation lemmas, page text is embedded as `List Char`.
- Python `set` objects are embedded as duplicate-free `List String`
  with membership-based insert (`setAdd`) and removal (`setDiscard`);
  only membership is ever observed by the program.
- Network effects are embedded as explicit inputs: the HTTP layer's
  outcome is an `Except`/`Option` value handed to the function, and a
  raised exception that the Python code does not catch is an
  `Except.error` result of the model.
- `urlparse(url).netloc` (an external library call) is embedded as an
  oracle `netlocOf : String -> Option String`, `none` standing for the
  case in which `urlparse` raises.
-/

namespace TenderAssistant

/-! ## Python string primitives used by the source -/

/-- Model of Python `str.lower` (character-wise, as used on ASCII hosts
and language tags in the source). -/
def pyLower (s : String) : String := String.mk (s.data.map Char.toLower)

/-- Character-list prefix test: `startsWithChars p l` is true iff `p` is
a prefix of `l`. Models Python `str.startswith`. -/
def startsWithChars : List Char → List Char → Bool
  | [], _ => true
  | _ :: _, [] => false
  | a :: as, b :: bs => a == b && startsWithChars as bs

/-- Contiguous-substring test on character lists. Models the Python
`in` operator on strings (`d in netloc`): true iff `needle` occurs
contiguously in `hay`; the empty needle occurs in every string. -/
def containsSub (needle : List Char) : List Char → Bool
  | [] => needle.isEmpty
  | c :: rest => startsWithChars needle (c :: rest) || containsSub needle rest

/-- Model of Python `str.startswith(prefixString)` on `String`s:
`pyStartsWith s p` is true iff `p` is a prefix of `s`. -/
def pyStartsWith (s p : String) : Bool := startsWithChars p.data s.data

/-- Python truthiness of an optional string (`None` and `""` are falsy),
as used by `x.get("link") or x.get("url")` in `serp_links`. -/
def pyTruthy : Option String → Bool
  | some s => s != ""
  | none => false

/-- Whitespace as stripped by Python `str.strip` and `str.lstrip`
(ASCII whitespace; the source only ever strips model output lines). -/
def pyIsSpace (c : Char) : Bool :=
  c == ' ' || c == '\t' || c == '\n' || c == '\r' || c == '\x0b' || c == '\x0c'

/-- Line-break characters recognised by Python `str.splitlines`. -/
def isLineBreak (c : Char) : Bool :=
  c == '\n' || c == '\r' || c == '\x0b' || c == '\x0c' || c == '\x1c' ||
  c == '\x1d' || c == '\x1e' || c == '\x85' || c == '\u2028' || c == '\u2029'

/-- Worker for `pySplitLines`: `cur` is the line being accumulated.
On a break the current line is emitted (even if empty); at the end of
the input the current line is emitted only if nonempty, and a CRLF pair
counts as a single break — exactly Python `str.splitlines`. -/
def splitLinesGo (cur : List Char) : List Char → List (List Char)
  | [] => if cur.isEmpty then [] else [cur]
  | '\r' :: '\n' :: rest => cur :: splitLinesGo [] rest
  | c :: rest =>
    if isLineBreak c then cur :: splitLinesGo [] rest
    else splitLinesGo (cur ++ [c]) rest

/-- Model of Python `str.splitlines` on a character list. -/
def pySplitLines (s : List Char) : List (List Char) := splitLinesGo [] s

/-- Model of Python `str.lstrip()`. -/
def pyLstrip (l : List Char) : List Char := l.dropWhile pyIsSpace

/-- Model of Python `str.strip()`. -/
def pyStrip (l : List Char) : List Char :=
  ((l.dropWhile pyIsSpace).reverse.dropWhile pyIsSpace).reverse

/-! ## Domain filter (src/main.py, is_scholar_url) -/

/-- The fixed allow-list `TRUSTED_LIT_DOMAINS` of src/main.py. -/
def TRUSTED_LIT_DOMAINS : List String :=
  [".edu", "springer", "sciencedirect", "arxiv", "researchgate", "acm", "ieee"]

/-- Embedding of `is_scholar_url` (src/main.py line 37): the oracle
`netlocOf` stands for `urlparse(url).netloc`, with `none` for the case
in which `urlparse` raises (the `except` branch returns `False`);
otherwise the lowered netloc is tested for each allow-listed substring. -/
def is_scholar_url (netlocOf : String → Option String) (url : String) : Bool :=
  match netlocOf url with
  | none => false
  | some netloc => TRUSTED_LIT_DOMAINS.any (fun d => containsSub d.data (pyLower netloc).data)

/-- Oracle for a URL whose parse raises (e.g. an invalid IPv6 bracket). -/
def noParse : String → Option String := fun _ => none

/-- Oracle returning a mixed-case Springer host for every URL. -/
def hostSpringer : String → Option String := fun _ => some "link.SPRINGER.com"

/-! ## Search client (src/main.py, serp_links) -/

/-- One entry of the `organic_results` array of the search API response:
either field may be absent. -/
structure OrganicResult where
  link : Option String
  url : Option String
deriving DecidableEq

/-- Parsed JSON body of the search API response; `none` stands for a
body with no `organic_results` key (`resp.get("organic_results", [])`). -/
structure SerpResponse where
  organic_results : Option (List OrganicResult)
deriving DecidableEq

/-- The Python expression `x.get("link") or x.get("url")`. -/
def linkOrUrl (r : OrganicResult) : Option String :=
  if pyTruthy r.link then r.link else r.url

/-- The list comprehension of src/main.py line 45: keep the
`link`-or-`url` value of each result whose value is truthy. -/
def rawUrls (results : List OrganicResult) : List String :=
  results.filterMap (fun r => if pyTruthy (linkOrUrl r) then linkOrUrl r else none)

/-- The pure tail of `serp_links` (src/main.py lines 45-49), applied to
an already-parsed response: extract raw URLs, filter to scholarly ones
when `lit` (otherwise truncate to `n`), then drop the category's
rejected URLs (the `kind` filter). -/
def serpLinksPure (netlocOf : String → Option String) (resp : SerpResponse)
    (n : Nat) (lit : Bool) (rejected : List String) : List String :=
  (if lit then (rawUrls (resp.organic_results.getD [])).filter (fun u => is_scholar_url netlocOf u)
   else (rawUrls (resp.organic_results.getD [])).take n).filter (fun u => decide (u ∉ rejected))

/-- Embedding of `serp_links` (src/main.py line 43). The function body
starts with `requests.get(...).json()` and has no try/except, so a
network, timeout or JSON-decode exception propagates to the caller:
the `httpResp` input carries that outcome and the `.error` case is
passed through unchanged. The `start`/`engine` parameters of the source
only shape the HTTP request and are absorbed into `httpResp`. -/
def serp_links (netlocOf : String → Option String) (httpResp : Except String SerpResponse)
    (n : Nat) (lit : Bool) (rejected : List String) : Except String (List String) :=
  match httpResp with
  | .error e => .error e
  | .ok resp => .ok (serpLinksPure netlocOf resp n lit rejected)

/-! ## Link curation store (src/main.py, link_picker and the Fetch links handler) -/

/-- Per-category curation state: the candidates list
(`st.session_state[kind_links]`), the accepted and rejected sets, and
the pagination cursor (`st.session_state.start_index[kind]`). -/
structure CurationState where
  links : List String
  accepted : List String
  rejected : List String
  startIndex : Nat
deriving DecidableEq

/-- The session-initial state of a category: empty lists and cursor 0
(src/main.py lines 25-32). -/
def initState : CurationState := { links := [], accepted := [], rejected := [], startIndex := 0 }

/-- Python `set.add`: insert if not already present. -/
def setAdd (l : List String) (u : String) : List String := if u ∈ l then l else l ++ [u]

/-- Python `set.discard`: remove if present. -/
def setDiscard (l : List String) (u : String) : List String := l.filter (fun v => decide (v ≠ u))

/-- The iteration list of `link_picker` (src/main.py line 164):
candidates followed by accepted URLs not already among them. -/
def combined (s : CurationState) : List String :=
  s.links ++ s.accepted.filter (fun u => decide (u ∉ s.links))

/-- Accept (the check-mark button, src/main.py lines 171-174): rendered
for a URL of `combined` that is not yet accepted; adds the URL to the
accepted set and leaves the candidates list untouched. -/
def accept (s : CurationState) (u : String) : CurationState :=
  if u ∈ combined s ∧ u ∉ s.accepted then { s with accepted := setAdd s.accepted u } else s

/-- Reject (the cross button, src/main.py lines 175-180): rendered for
any URL of `combined`; discards it from accepted, adds it to rejected,
and removes its first occurrence from the candidates list if present
(`links.remove` guarded by `url in links`). -/
def reject (s : CurationState) (u : String) : CurationState :=
  if u ∈ combined s then
    { s with accepted := setDiscard s.accepted u
           , rejected := setAdd s.rejected u
           , links := s.links.erase u }
  else s

/-- ManualAdd (src/main.py lines 181-186): the Add button fires only for
a truthy (nonempty) URL, and appends it to the candidates list when it
is in neither the candidates list nor the rejected set. The source does
not consult the accepted set here. -/
def manualAdd (s : CurationState) (u : String) : CurationState :=
  if u ≠ "" ∧ u ∉ s.links ∧ u ∉ s.rejected then { s with links := s.links ++ [u] } else s

/-- The append loop of FetchMore (src/main.py lines 193-195): each
returned URL is appended to the candidates list when it is in neither
the (growing) candidates list nor the accepted set. -/
def appendNew (links accepted : List String) : List String → List String
  | [] => links
  | u :: rest =>
    if u ∉ links ∧ u ∉ accepted then appendNew (links ++ [u]) accepted rest
    else appendNew links accepted rest

/-- FetchMore (src/main.py lines 187-197): re-query the search client
with the stored query and the rejected set as exclusions, append the
unknown returned URLs, and advance the cursor by the stored
results-per-query count `n` regardless of how many were appended. -/
def fetchMore (netlocOf : String → Option String) (lit : Bool) (s : CurationState)
    (resp : SerpResponse) (n : Nat) : CurationState :=
  { s with links := appendNew s.links s.accepted (serpLinksPure netlocOf resp n lit s.rejected)
         , startIndex := s.startIndex + n }

/-- Fetch-initial for one selected category (src/main.py lines 136-155):
the candidates list is replaced by the search result and the cursor is
set to the count requested from the search client — `results_per_query`
for the tender, supplier and previous-tender categories, and
`results_per_query * 2` for the literature category. -/
def fetchInitial (netlocOf : String → Option String) (lit : Bool) (s : CurationState)
    (resp : SerpResponse) (n : Nat) : CurationState :=
  if lit then
    { s with links := serpLinksPure netlocOf resp (n * 2) true s.rejected, startIndex := n * 2 }
  else
    { s with links := serpLinksPure netlocOf resp n false s.rejected, startIndex := n }

/-- The four user operations of the claims, with their network inputs
made explicit (a FetchMore carries the parsed response of its search
call and the stored results-per-query count). -/
inductive Op where
  | accept (u : String)
  | reject (u : String)
  | manualAdd (u : String)
  | fetchMore (resp : SerpResponse) (n : Nat)

/-- One user action on a category's state. -/
def applyOp (netlocOf : String → Option String) (lit : Bool) (s : CurationState) : Op → CurationState
  | .accept u => accept s u
  | .reject u => reject s u
  | .manualAdd u => manualAdd s u
  | .fetchMore resp n => fetchMore netlocOf lit s resp n

/-- A sequence of user actions, applied left to right. -/
def runOps (netlocOf : String → Option String) (lit : Bool) (s : CurationState) : List Op → CurationState
  | [] => s
  | op :: rest => runOps netlocOf lit (applyOp netlocOf lit s op) rest

/-- State invariant maintained by the four operations: the candidates
list is duplicate-free, and neither a candidate nor an accepted URL is
rejected. -/
def Inv (s : CurationState) : Prop :=
  s.links.Nodup ∧ (∀ u, u ∈ s.links → u ∉ s.rejected) ∧ (∀ u, u ∈ s.accepted → u ∉ s.rejected)

/-! ## Content fetcher (src/main.py, is_english and fetch_text) -/

/-- What the content fetcher observes of a successfully retrieved and
parsed page: the `lang` attribute of the root `html` element and the
`content` of a `content-language` meta tag (the source defaults both to
`""` when the element, attribute or tag is absent), and the visible
text after BeautifulSoup's whitespace-collapsing `get_text`. -/
structure Page where
  htmlLang : String
  metaLang : String
  visibleText : List Char
deriving DecidableEq

/-- The language-detection chain of `is_english` (src/main.py lines
52-55): the root element's `lang`, falling back to the meta tag when
empty. -/
def declaredLang (p : Page) : String :=
  if p.htmlLang ≠ "" then p.htmlLang else p.metaLang

/-- Embedding of `is_english` (src/main.py line 51): an absent language
is acceptable, otherwise the lowered tag must start with `en`. -/
def is_english (p : Page) : Bool :=
  (declaredLang p == "") || pyStartsWith (pyLower (declaredLang p)) "en"

/-- Embedding of `fetch_text` (src/main.py line 58): `fetched` is the
outcome of `requests.get(url, timeout=10)` plus parsing, with `none`
for any exception (the `except` branch returns `""`); `onlyEng` is the
session's english-only toggle. On success the page is dropped when the
toggle is on and the page is not English, else its visible text is
truncated to `maxChars`. -/
def fetch_text (fetched : Option Page) (onlyEng : Bool) (maxChars : Nat) : List Char :=
  match fetched with
  | none => []
  | some p => if onlyEng && !is_english p then [] else p.visibleText.take maxChars

/-! ## Question extraction (src/main.py, extract_questions) -/

/-- First character of the lstripped line is one of the digits 1-5:
the Python guard `ln.lstrip().startswith(tuple("12345"))`. -/
def startsWithDigit15 (l : List Char) : Bool :=
  match pyLstrip l with
  | [] => false
  | c :: _ => c == '1' || c == '2' || c == '3' || c == '4' || c == '5'

/-- The list comprehension of `extract_questions` evaluated line by
line: strip and keep the lines passing the digit guard. -/
def extractQuestionsAux : List (List Char) → List (List Char)
  | [] => []
  | ln :: rest =>
    if startsWithDigit15 ln then pyStrip ln :: extractQuestionsAux rest
    else extractQuestionsAux rest

/-- Embedding of `extract_questions` (src/main.py line 77). -/
def extract_questions (text : List Char) : List (List Char) :=
  extractQuestionsAux (pySplitLines text)

/-! ## PDF excerpts (src/main.py, pdf_to_text) -/

/-- The `"".join(p.extract_text() or "" for p in ...)` generator,
consumed left to right: a page whose `extract_text` raised (`.error`)
aborts the whole join with that exception, a page extracting `None`
contributes the empty string. -/
def joinPages : List (Except String (Option String)) → Except String String
  | [] => .ok ""
  | p :: rest =>
    match p with
    | .error e => .error e
    | .ok t =>
      match joinPages rest with
      | .error e => .error e
      | .ok s => .ok ((t.getD "") ++ s)

/-- Embedding of `pdf_to_text` (src/main.py line 67): `doc` is the
outcome of `PdfReader(file)` — `.error` when the reader raises on a
malformed document — carrying per-page `extract_text` outcomes. The
source has no try/except, so either kind of exception propagates. -/
def pdf_to_text (doc : Except String (List (Except String (Option String)))) : Except String String :=
  match doc with
  | .error e => .error e
  | .ok pages => joinPages (pages.take 3)

/-- Reference concatenation of per-page extracted text, `None` pages
contributing the empty string. -/
def concatTexts : List (Option String) → String
  | [] => ""
  | t :: rest => (t.getD "") ++ concatTexts rest

/-! ## Concrete data used by witnesses and counterexamples -/

/-- A parsed search response holding one organic result with link `a`. -/
def respA : SerpResponse := { organic_results := some [{ link := some "a", url := none }] }

/-- A parsed search response with an empty `organic_results` array. -/
def respEmpty : SerpResponse := { organic_results := some [] }

/-- A page declaring French in its root element. -/
def pageFr : Page := { htmlLang := "fr", metaLang := "", visibleText := "Bonjour le monde".data }

/-- A page declaring no language at all. -/
def pageNoLang : Page := { htmlLang := "", metaLang := "", visibleText := "hello world".data }

/-- A curation state whose candidates list already holds `a`. -/
def ex5 : CurationState := { links := ["a"], accepted := [], rejected := [], startIndex := 0 }

/-- A state reachable in the source UI: fetch returns `a`, the user
accepts it, then a later Fetch-links click resets the candidates list
(src/main.py line 133) while the accepted set survives — leaving `a`
accepted but not a candidate. -/
def cex5State : CurationState :=
  fetchInitial noParse false (accept (fetchMore noParse false initState respA 3) "a") respEmpty 3

/-- A collaborator response with exactly three numbered lines. -/
def sampleResponse : List Char :=
  ("QUESTIONS:\nSure, here you go.\n1. What is the budget?\nNote: see below.\n2. What is the timeline?\n3. Which sites are in scope?\nThanks!").data

/-! ## Helper lemmas -/

theorem mem_setAdd {l : List String} {v u : String} : u ∈ setAdd l v ↔ u ∈ l ∨ u = v := by
  unfold setAdd
  split
  case isTrue hv =>
    constructor
    · exact fun h => Or.inl h
    · rintro (h | rfl)
      · exact h
      · exact hv
  case isFalse hv =>
    simp [List.mem_append]

theorem mem_setDiscard {l : List String} {v u : String} : u ∈ setDiscard l v ↔ u ∈ l ∧ u ≠ v := by
  simp [setDiscard, List.mem_filter]

theorem mem_combined {s : CurationState} {u : String} :
    u ∈ combined s ↔ u ∈ s.links ∨ u ∈ s.accepted := by
  unfold combined
  constructor
  · intro h
    rcases List.mem_append.mp h with h | h
    · exact Or.inl h
    · exact Or.inr (List.mem_filter.mp h).1
  · rintro (h | h)
    · exact List.mem_append.mpr (Or.inl h)
    · by_cases hl : u ∈ s.links
      · exact List.mem_append.mpr (Or.inl hl)
      · exact List.mem_append.mpr (Or.inr (List.mem_filter.mpr ⟨h, decide_eq_true hl⟩))

theorem mem_appendNew (E L A : List String) (u : String) (h : u ∈ appendNew L A E) :
    u ∈ L ∨ (u ∈ E ∧ u ∉ L ∧ u ∉ A) := by
  induction E generalizing L with
  | nil => exact Or.inl h
  | cons v rest ih =>
    simp only [appendNew] at h
    split at h
    case isTrue hc =>
      rcases ih (L ++ [v]) h with hL | ⟨hE, hnL, hnA⟩
      · rcases List.mem_append.mp hL with h1 | h2
        · exact Or.inl h1
        · have huv : u = v := List.mem_singleton.mp h2
          subst huv
          exact Or.inr ⟨List.mem_cons_self u rest, hc.1, hc.2⟩
      · refine Or.inr ⟨List.mem_cons_of_mem v hE, fun hu => hnL (List.mem_append.mpr (Or.inl hu)), hnA⟩
    case isFalse hc =>
      rcases ih L h with hL | ⟨hE, hnL, hnA⟩
      · exact Or.inl hL
      · exact Or.inr ⟨List.mem_cons_of_mem v hE, hnL, hnA⟩

theorem nodup_appendNew (E L A : List String) (hn : L.Nodup) : (appendNew L A E).Nodup := by
  induction E generalizing L with
  | nil => exact hn
  | cons v rest ih =>
    simp only [appendNew]
    split
    case isTrue hc =>
      refine ih (L ++ [v]) (List.nodup_append.mpr ⟨hn, List.nodup_singleton v, ?_⟩)
      intro a ha hb
      rw [List.mem_singleton] at hb
      subst hb
      exact hc.1 ha
    case isFalse hc => exact ih L hn

theorem serpLinksPure_not_rejected {netlocOf : String → Option String} {resp : SerpResponse}
    {n : Nat} {lit : Bool} {rejected : List String} {u : String}
    (h : u ∈ serpLinksPure netlocOf resp n lit rejected) : u ∉ rejected := by
  unfold serpLinksPure at h
  exact of_decide_eq_true (List.mem_filter.mp h).2

theorem inv_init : Inv initState :=
  ⟨List.nodup_nil, fun u h => absurd h (List.not_mem_nil u), fun u h => absurd h (List.not_mem_nil u)⟩

theorem inv_accept (s : CurationState) (u : String) (h : Inv s) : Inv (accept s u) := by
  unfold accept
  split
  case isTrue hc =>
    obtain ⟨hn, hl, ha⟩ := h
    refine ⟨hn, hl, ?_⟩
    intro v hv
    rcases mem_setAdd.mp hv with hva | rfl
    · exact ha v hva
    · rcases mem_combined.mp hc.1 with h1 | h2
      · exact hl v h1
      · exact absurd h2 hc.2
  case isFalse => exact h

theorem inv_reject (s : CurationState) (u : String) (h : Inv s) : Inv (reject s u) := by
  unfold reject
  split
  case isTrue hc =>
    obtain ⟨hn, hl, ha⟩ := h
    refine ⟨hn.erase u, ?_, ?_⟩
    · intro v hv
      rw [List.Nodup.mem_erase_iff hn] at hv
      intro hvr
      rcases mem_setAdd.mp hvr with hr | rfl
      · exact hl v hv.2 hr
      · exact hv.1 rfl
    · intro v hv
      have hv' := mem_setDiscard.mp hv
      intro hvr
      rcases mem_setAdd.mp hvr with hr | rfl
      · exact ha v hv'.1 hr
      · exact hv'.2 rfl
  case isFalse => exact h

theorem inv_manualAdd (s : CurationState) (u : String) (h : Inv s) : Inv (manualAdd s u) := by
  unfold manualAdd
  split
  case isTrue hc =>
    obtain ⟨hn, hl, ha⟩ := h
    refine ⟨?_, ?_, ha⟩
    · refine List.nodup_append.mpr ⟨hn, List.nodup_singleton u, ?_⟩
      intro a haL hau
      rw [List.mem_singleton] at hau
      subst hau
      exact hc.2.1 haL
    · intro v hv
      rcases List.mem_append.mp hv with h1 | h2
      · exact hl v h1
      · rw [List.mem_singleton] at h2
        subst h2
        exact hc.2.2
  case isFalse => exact h

theorem inv_fetchMore (netlocOf : String → Option String) (lit : Bool) (s : CurationState)
    (resp : SerpResponse) (n : Nat) (h : Inv s) : Inv (fetchMore netlocOf lit s resp n) := by
  obtain ⟨hn, hl, ha⟩ := h
  refine ⟨nodup_appendNew _ _ _ hn, ?_, ha⟩
  intro v hv
  rcases mem_appendNew _ _ _ v hv with h1 | ⟨h2, _, _⟩
  · exact hl v h1
  · exact serpLinksPure_not_rejected h2

theorem inv_applyOp (netlocOf : String → Option String) (lit : Bool) (s : CurationState)
    (op : Op) (h : Inv s) : Inv (applyOp netlocOf lit s op) := by
  cases op with
  | accept u => exact inv_accept s u h
  | reject u => exact inv_reject s u h
  | manualAdd u => exact inv_manualAdd s u h
  | fetchMore resp n => exact inv_fetchMore netlocOf lit s resp n h

theorem inv_runOps (netlocOf : String → Option String) (lit : Bool) (ops : List Op)
    (s : CurationState) (h : Inv s) : Inv (runOps netlocOf lit s ops) := by
  induction ops generalizing s with
  | nil => exact h
  | cons op rest ih => exact ih (applyOp netlocOf lit s op) (inv_applyOp netlocOf lit s op h)

theorem extractQuestionsAux_eq (L : List (List Char)) :
    extractQuestionsAux L = (L.filter startsWithDigit15).map pyStrip := by
  induction L with
  | nil => rfl
  | cons ln rest ih =>
    simp only [extractQuestionsAux, List.filter]
    cases h : startsWithDigit15 ln with
    | false => simp [h, ih]
    | true => simp [h, ih]

theorem joinPages_take_map (l : List (Option String)) (n : Nat) :
    joinPages ((l.map Except.ok).take n) = Except.ok (concatTexts (l.take n)) := by
  induction l generalizing n with
  | nil => simp [joinPages, concatTexts]
  | cons t rest ih =>
    cases n with
    | zero => simp [joinPages, concatTexts]
    | succ m =>
      simp only [List.map_cons, List.take_succ_cons, joinPages, concatTexts, ih m]

/-! ## Claim theorems -/

/-- C1 counterexample: `serp_links` has no try/except, so a failed HTTP
search request (network error, timeout, unparseable body) propagates as
an exception to the caller instead of yielding the empty list the claim
demands. -/
theorem serp_links_raises_cex :
    serp_links noParse (Except.error "ReadTimeout") 3 false [] = Except.error "ReadTimeout" ∧
    serp_links noParse (Except.error "ReadTimeout") 3 false [] ≠ Except.ok [] :=
  ⟨rfl, fun h => Except.noConfusion h⟩

/-- C1 (amended): an exception of the HTTP request or JSON decoding
propagates unchanged out of `serp_links`; when the request succeeds the
function never raises — it returns the filtered URL list — and a parsed
body without an `organic_results` array yields the empty list. -/
theorem serp_links_amended_spec (netlocOf : String → Option String) (n : Nat) (lit : Bool)
    (rej : List String) :
    (∀ e : String, serp_links netlocOf (Except.error e) n lit rej = Except.error e) ∧
    (∀ resp : SerpResponse,
      serp_links netlocOf (Except.ok resp) n lit rej = Except.ok (serpLinksPure netlocOf resp n lit rej)) ∧
    (∀ resp : SerpResponse, resp.organic_results = none →
      serp_links netlocOf (Except.ok resp) n lit rej = Except.ok []) := by
  refine ⟨fun e => rfl, fun resp => rfl, ?_⟩
  intro resp h
  cases lit <;> simp [serp_links, serpLinksPure, h, rawUrls]

/-- C1 witness: the amended statement at concrete inputs — a timed-out
request propagates, a body without results gives the empty list. -/
theorem serp_links_amended_spec_witness :
    serp_links noParse (Except.error "ConnectionError") 3 false [] = Except.error "ConnectionError" ∧
    serp_links noParse (Except.ok (SerpResponse.mk none)) 3 false [] = Except.ok [] :=
  ⟨(serp_links_amended_spec noParse 3 false []).1 "ConnectionError",
   (serp_links_amended_spec noParse 3 false []).2.2 (SerpResponse.mk none) rfl⟩

/-- C2 counterexample: from the initial empty state, FetchMore returns
URL `a` and the user accepts it; the check-mark handler only does
`accepted.add(url)` and leaves the candidates list untouched, so `a` is
then in both the candidates list and the accepted set, contradicting
the claimed disjointness of candidates and accepted. -/
theorem candidates_accepted_overlap_cex :
    "a" ∈ (runOps noParse false initState [Op.fetchMore respA 3, Op.accept "a"]).links ∧
    "a" ∈ (runOps noParse false initState [Op.fetchMore respA 3, Op.accept "a"]).accepted :=
  ⟨by decide, by decide⟩

/-- C2 (amended): after any sequence of Accept, Reject, ManualAdd and
FetchMore operations from the initial empty state, no URL of the
candidates list is in the rejected set; a candidate may however also be
in the accepted set, because Accept leaves the URL in the candidates
list. -/
theorem candidates_never_rejected (netlocOf : String → Option String) (lit : Bool)
    (ops : List Op) (u : String)
    (h : u ∈ (runOps netlocOf lit initState ops).links) :
    u ∉ (runOps netlocOf lit initState ops).rejected :=
  (inv_runOps netlocOf lit ops initState inv_init).2.1 u h

/-- C2 witness: the amended statement at a concrete run — after one
FetchMore returning `a`, the candidate `a` is not rejected. -/
theorem candidates_never_rejected_witness :
    "a" ∉ (runOps noParse false initState [Op.fetchMore respA 3]).rejected :=
  candidates_never_rejected noParse false [Op.fetchMore respA 3] "a" (by decide)

/-- C3: after any sequence of Accept, Reject, ManualAdd and FetchMore
operations from the initial empty state, the accepted set and the
rejected set are disjoint: an accepted URL is never rejected. -/
theorem accepted_rejected_disjoint (netlocOf : String → Option String) (lit : Bool)
    (ops : List Op) (u : String)
    (h : u ∈ (runOps netlocOf lit initState ops).accepted) :
    u ∉ (runOps netlocOf lit initState ops).rejected :=
  (inv_runOps netlocOf lit ops initState inv_init).2.2 u h

/-- C3 witness: the accepted URL `a` of a concrete FetchMore-then-Accept
run is not in the rejected set. -/
theorem accepted_rejected_disjoint_witness :
    "a" ∉ (runOps noParse false initState [Op.fetchMore respA 2, Op.accept "a"]).rejected :=
  accepted_rejected_disjoint noParse false [Op.fetchMore respA 2, Op.accept "a"] "a" (by decide)

/-- C4: FetchMore advances the cursor by exactly the stored
results-per-query count `n` whatever was appended, leaves the accepted
and rejected sets unchanged, and every URL of the resulting candidates
list is either an old candidate or a URL of the (rejected-filtered)
search result that was in none of candidates, accepted or rejected —
in particular no URL of the rejected set is ever added. -/
theorem fetchMore_spec (netlocOf : String → Option String) (lit : Bool) (s : CurationState)
    (resp : SerpResponse) (n : Nat) :
    (fetchMore netlocOf lit s resp n).startIndex = s.startIndex + n ∧
    (fetchMore netlocOf lit s resp n).accepted = s.accepted ∧
    (fetchMore netlocOf lit s resp n).rejected = s.rejected ∧
    ((fetchMore netlocOf lit s resp n).links.all (fun u =>
        decide (u ∈ s.links) ||
        (decide (u ∈ serpLinksPure netlocOf resp n lit s.rejected) &&
         decide (u ∉ s.links) && decide (u ∉ s.accepted) && decide (u ∉ s.rejected)))) = true := by
  refine ⟨rfl, rfl, rfl, ?_⟩
  rw [List.all_eq_true]
  intro u hu
  have hm := mem_appendNew (serpLinksPure netlocOf resp n lit s.rejected) s.links s.accepted u hu
  rcases hm with hL | ⟨hE, hnL, hnA⟩
  · simp [hL]
  · have hnR := serpLinksPure_not_rejected hE
    simp [hE, hnL, hnA, hnR]

/-- C5 counterexample: in a state reachable through the source UI (see
`cex5State`) the URL `a` is in the accepted set but not in candidates
or rejected; the Add handler only checks the candidates list and the
rejected set, so ManualAdd of `a` is not a no-op — it appends `a` to
the candidates list, contradicting the claim. -/
theorem manualAdd_noop_cex :
    "a" ∈ cex5State.accepted ∧ manualAdd cex5State "a" ≠ cex5State ∧
    (manualAdd cex5State "a").links = ["a"] :=
  ⟨by decide, by decide, by decide⟩

/-- C5 (amended): ManualAdd is a no-op exactly when the URL is empty
(the Add button does not fire on an empty field), already a candidate,
or already rejected; otherwise it appends the URL to the candidates
list and changes nothing else — membership in the accepted set alone
does not prevent the append. -/
theorem manualAdd_spec (s : CurationState) (u : String) :
    ((u = "" ∨ u ∈ s.links ∨ u ∈ s.rejected) → manualAdd s u = s) ∧
    (u ≠ "" → u ∉ s.links → u ∉ s.rejected →
      (manualAdd s u).links = s.links ++ [u] ∧ (manualAdd s u).accepted = s.accepted ∧
      (manualAdd s u).rejected = s.rejected ∧ (manualAdd s u).startIndex = s.startIndex) := by
  constructor
  · intro h
    have hng : ¬(u ≠ "" ∧ u ∉ s.links ∧ u ∉ s.rejected) := by tauto
    unfold manualAdd
    rw [if_neg hng]
  · intro h1 h2 h3
    unfold manualAdd
    rw [if_pos ⟨h1, h2, h3⟩]
    exact ⟨rfl, rfl, rfl, rfl⟩

/-- C5 witness: the amended statement at concrete inputs — adding a URL
already in candidates is a no-op, adding a fresh URL appends it. -/
theorem manualAdd_spec_witness :
    manualAdd ex5 "a" = ex5 ∧
    ((manualAdd ex5 "b").links = ex5.links ++ ["b"] ∧ (manualAdd ex5 "b").accepted = ex5.accepted ∧
     (manualAdd ex5 "b").rejected = ex5.rejected ∧ (manualAdd ex5 "b").startIndex = ex5.startIndex) := by
  refine ⟨(manualAdd_spec ex5 "a").1 ?_, (manualAdd_spec ex5 "b").2 (by decide) (by decide) (by decide)⟩
  exact Or.inr (Or.inl (by decide))

/-- C6: for every selected category, the Fetch-links handler sets the
category's cursor to exactly the count it requested from the search
client for that category's query — `results_per_query` for the tender,
supplier and previous-tender categories and `results_per_query * 2` for
the literature category — and stores the (rejected-filtered) search
result as the candidates list, touching neither accepted nor rejected. -/
theorem fetchInitial_cursor_spec (netlocOf : String → Option String) (lit : Bool)
    (s : CurationState) (resp : SerpResponse) (n : Nat) :
    (fetchInitial netlocOf lit s resp n).startIndex = (if lit then n * 2 else n) ∧
    (fetchInitial netlocOf lit s resp n).links =
      serpLinksPure netlocOf resp (if lit then n * 2 else n) lit s.rejected ∧
    (fetchInitial netlocOf lit s resp n).accepted = s.accepted ∧
    (fetchInitial netlocOf lit s resp n).rejected = s.rejected := by
  cases lit <;> simp [fetchInitial]

/-- C7: `is_scholar_url` is true iff the URL's parsed host exists and
its lowered form contains one of the fixed allow-listed substrings (the
entries are lowercase, so lowering the host makes the containment
case-insensitive); when the parse raises (`netlocOf` returns `none`,
caught by the source's except branch) it returns false, and being a
total Lean function it never raises. -/
theorem is_scholar_url_spec (netlocOf : String → Option String) (url : String) :
    (is_scholar_url netlocOf url = true ↔
      ∃ netloc, netlocOf url = some netloc ∧
        ∃ d ∈ TRUSTED_LIT_DOMAINS, containsSub d.data (pyLower netloc).data = true) ∧
    (netlocOf url = none → is_scholar_url netlocOf url = false) := by
  constructor
  · unfold is_scholar_url
    cases h : netlocOf url with
    | none => simp
    | some netloc =>
      rw [List.any_eq_true]
      constructor
      · rintro ⟨d, hd, hc⟩
        exact ⟨netloc, rfl, d, hd, hc⟩
      · rintro ⟨m, hm, d, hd, hc⟩
        injection hm with hm
        subst hm
        exact ⟨d, hd, hc⟩
  · intro h
    unfold is_scholar_url
    rw [h]

/-- C7 witness: a URL whose parse raises is not scholarly; a URL whose
host is a mixed-case Springer domain is scholarly. -/
theorem is_scholar_url_spec_witness :
    is_scholar_url noParse "http://[" = false ∧
    is_scholar_url hostSpringer "https://link.SPRINGER.com/article/1" = true :=
  ⟨(is_scholar_url_spec noParse "http://[").2 rfl,
   (is_scholar_url_spec hostSpringer "https://link.SPRINGER.com/article/1").1.mpr
     ⟨"link.SPRINGER.com", rfl, "springer", by decide, by decide⟩⟩

/-- C8: `fetch_text` returns the empty string for every failed fetch or
parse (the `none` input) and, being total, never raises; with
english-only on, a page whose declared language is nonempty and does
not start with `en` (case-insensitively) yields the empty string; a
page declaring no language is acceptable and yields its visible text
truncated to `maxChars`; an English page, or any page with english-only
off, likewise yields the truncated text; and every result has length at
most `maxChars`. -/
theorem fetch_text_spec (onlyEng : Bool) (m : Nat) :
    (fetch_text none onlyEng m = []) ∧
    (∀ p : Page, declaredLang p ≠ "" → pyStartsWith (pyLower (declaredLang p)) "en" = false →
      fetch_text (some p) true m = []) ∧
    (∀ p : Page, declaredLang p = "" → fetch_text (some p) onlyEng m = p.visibleText.take m) ∧
    (∀ p : Page, is_english p = true → fetch_text (some p) onlyEng m = p.visibleText.take m) ∧
    (∀ p : Page, fetch_text (some p) false m = p.visibleText.take m) ∧
    (∀ fetched : Option Page, (fetch_text fetched onlyEng m).length ≤ m) := by
  refine ⟨rfl, ?_, ?_, ?_, ?_, ?_⟩
  · intro p h1 h2
    have he : is_english p = false := by
      unfold is_english
      rw [h2]
      simp [h1]
    simp [fetch_text, he]
  · intro p h
    have he : is_english p = true := by
      unfold is_english
      simp [h]
    simp [fetch_text, he]
  · intro p he
    simp [fetch_text, he]
  · intro p
    simp [fetch_text]
  · intro fetched
    cases fetched with
    | none => simp [fetch_text]
    | some p =>
      simp only [fetch_text]
      split
      · simp
      · exact List.length_take_le m p.visibleText

/-- C8 witness: a page declaring French is dropped under english-only,
a page declaring no language is truncated and kept, and a failed fetch
yields the empty string. -/
theorem fetch_text_spec_witness :
    fetch_text (some pageFr) true 8000 = [] ∧
    fetch_text (some pageNoLang) true 5 = pageNoLang.visibleText.take 5 ∧
    fetch_text none true 8000 = [] :=
  ⟨(fetch_text_spec true 8000).2.1 pageFr (by decide) (by decide),
   (fetch_text_spec true 5).2.2.1 pageNoLang (by decide),
   (fetch_text_spec true 8000).1⟩

/-- C9: `extract_questions` returns exactly the stripped lines whose
content begins, after removing leading whitespace, with one of the
digit characters 1 through 5, in their original order (the filter-map
characterisation); and a collaborator response containing only three
such lines yields a three-element question list, not an error. -/
theorem extract_questions_spec :
    (∀ t : List Char,
      extract_questions t = ((pySplitLines t).filter startsWithDigit15).map pyStrip) ∧
    (extract_questions sampleResponse).length = 3 ∧
    extract_questions sampleResponse =
      [("1. What is the budget?").data, ("2. What is the timeline?").data,
       ("3. Which sites are in scope?").data] := by
  refine ⟨?_, ?_, ?_⟩
  · intro t
    exact extractQuestionsAux_eq (pySplitLines t)
  · decide
  · decide

/-- C10 counterexample: `pdf_to_text` has no try/except, so a page
whose `extract_text` raises — or a document on which `PdfReader`
raises — propagates the exception to the caller instead of yielding
empty text for that document as the claim demands. -/
theorem pdf_to_text_error_cex :
    pdf_to_text (Except.ok [Except.error "ContentStreamError"]) =
      Except.error "ContentStreamError" ∧
    pdf_to_text (Except.ok [Except.error "ContentStreamError"]) ≠ Except.ok "" ∧
    pdf_to_text (Except.error "PdfReadError") = Except.error "PdfReadError" :=
  ⟨rfl, fun h => Except.noConfusion h, rfl⟩

/-- C10 (amended): for a readable document none of whose first pages
raises, `pdf_to_text` returns the concatenated extracted text of at
most the first three pages, a page extracting `None` contributing the
empty string; but an exception from opening the document propagates to
the caller unchanged (as does one from a page's extraction, see the
counterexample). -/
theorem pdf_to_text_spec (texts : List (Option String)) (e : String) :
    pdf_to_text (Except.ok (texts.map Except.ok)) = Except.ok (concatTexts (texts.take 3)) ∧
    pdf_to_text (Except.error e) = Except.error e := by
  refine ⟨?_, rfl⟩
  show joinPages ((texts.map Except.ok).take 3) = Except.ok (concatTexts (texts.take 3))
  exact joinPages_take_map texts 3

end TenderAssistant
